import Mathlib

/-!
# Verification of the Screwie message-printing pipeline

Shallow embedding of `src/screwie.py`: a Telegram bot that word-wraps an
inbound message (plus a generated timestamp/username header) to a fixed
pixel budget, renders the lines onto a monochrome canvas, saves the canvas
to a scoped temporary file, and launches an external printer command.

Strings are modelled as `List Char`.  Python's `str.split()`,
`str.strip()` and `str.splitlines()` are embedded below; pixel
measurement (`draw.textlength` under a fixed font) is modelled as the sum
of per-glyph advance widths.
-/

namespace Screwie

/-- Python whitespace: the characters `str.isspace` accepts, on which
`str.split()` and `str.strip()` operate. -/
def isSpace (c : Char) : Bool :=
  c = ' ' || c = '\t' || c = '\n' || c = '\x0b' || c = '\x0c' || c = '\r' ||
  c = '\x1c' || c = '\x1d' || c = '\x1e' || c = '\x1f' ||
  c = '\x85' || c = '\xa0' || c = '\u1680' ||
  ('\u2000' ≤ c && c ≤ '\u200a') ||
  c = '\u2028' || c = '\u2029' || c = '\u202f' || c = '\u205f' || c = '\u3000'

/-- Python line-boundary characters recognised by `str.splitlines`
(LF, CR, VT, FF, FS, GS, RS, NEL, LS, PS; CRLF is treated as one break). -/
def isLineBreak (c : Char) : Bool :=
  c = '\n' || c = '\r' || c = '\x0b' || c = '\x0c' ||
  c = '\x1c' || c = '\x1d' || c = '\x1e' ||
  c = '\x85' || c = '\u2028' || c = '\u2029'

/-- Worker for `pySplit`: `acc` holds the characters of the word being
read, in reverse. -/
def pySplitAux : List Char → List Char → List (List Char)
  | acc, [] => if acc.isEmpty then [] else [acc.reverse]
  | acc, c :: cs =>
    if isSpace c then
      if acc.isEmpty then pySplitAux [] cs else acc.reverse :: pySplitAux [] cs
    else pySplitAux (c :: acc) cs

/-- Python `str.split()` with no argument: split on runs of whitespace,
discarding empty pieces (`line.split()`, src/screwie.py line 116). -/
def pySplit (s : List Char) : List (List Char) :=
  pySplitAux [] s

/-- Python `str.strip()`: remove leading and trailing whitespace
(src/screwie.py line 119). -/
def pyStrip (s : List Char) : List Char :=
  (((s.dropWhile isSpace).reverse.dropWhile isSpace)).reverse

/-- Worker for `splitlines`: `acc` holds the current line in reverse;
a CRLF pair is one boundary, and a trailing boundary does not open a
fresh empty line. -/
def splitlinesAux : List Char → List Char → List (List Char)
  | acc, [] => [acc.reverse]
  | acc, '\r' :: '\n' :: cs =>
    match cs with
    | [] => [acc.reverse]
    | _ :: _ => acc.reverse :: splitlinesAux [] cs
  | acc, c :: cs =>
    if isLineBreak c then
      match cs with
      | [] => [acc.reverse]
      | _ :: _ => acc.reverse :: splitlinesAux [] cs
    else splitlinesAux (c :: acc) cs

/-- Python `str.splitlines()` (src/screwie.py line 115). -/
def splitlines (s : List Char) : List (List Char) :=
  if s.isEmpty then [] else splitlinesAux [] s

/-- Join words with single-space separators: the shape of every
accumulator value the wrap loop builds. -/
def joinWords : List (List Char) → List Char
  | [] => []
  | [w] => w
  | w :: ws => w ++ ' ' :: joinWords ws

/-- A word as produced by `pySplit`: non-empty and free of whitespace. -/
def goodWord (w : List Char) : Prop :=
  w ≠ [] ∧ ∀ c ∈ w, isSpace c = false

instance (w : List Char) : Decidable (goodWord w) := by
  unfold goodWord
  infer_instance

/-- `draw.textlength(text=s, font=font)` for a fixed font, modelled as the
sum of the per-glyph advance widths `adv` (src/screwie.py line 120). -/
def textlength (adv : Char → Nat) (s : List Char) : Nat :=
  (s.map adv).sum

/-- The candidate line `(current_line + ' ' + word).strip()`
(src/screwie.py line 119). -/
def test_line (cur w : List Char) : List Char :=
  pyStrip (cur ++ ' ' :: w)

/-- The greedy word-wrap inner loop over one source line's words
(src/screwie.py lines 117-126): grow the accumulator while the candidate
measures within the budget, otherwise emit the accumulator and restart
from the current word; after the last word the accumulator is emitted. -/
def wrapWords (measure : List Char → Nat) (budget : Nat) :
    List Char → List (List Char) → List (List Char)
  | cur, [] => [cur]
  | cur, w :: ws =>
    if measure (test_line cur w) ≤ budget then
      wrapWords measure budget (test_line cur w) ws
    else
      cur :: wrapWords measure budget w ws

/-- Wrap one source line: split it into words and run the loop with an
empty accumulator (src/screwie.py lines 116-126). -/
def wrapLine (measure : List Char → Nat) (budget : Nat) (line : List Char) :
    List (List Char) :=
  wrapWords measure budget [] (pySplit line)

/-- Concatenation of mapped lists, used to collect the wrapped lines of
all source lines into the single `lines` list of the source. -/
def concatMap (f : α → List β) : List α → List β
  | [] => []
  | a :: l => f a ++ concatMap f l

/-- The full wrap of the formatted text: `for line in text.splitlines()`
appending into one `lines` list (src/screwie.py lines 114-126). -/
def wrapText (measure : List Char → Nat) (budget : Nat) (text : List Char) :
    List (List Char) :=
  concatMap (wrapLine measure budget) (splitlines text)

/-- `width = 384` (src/screwie.py line 88). -/
def width : Nat := 384

/-- `padding = 8` (src/screwie.py line 93). -/
def padding : Nat := 8

/-- `spacing = 8` (src/screwie.py line 94). -/
def spacing : Nat := 8

/-- The authorization test `update.effective_user.id in allowed_users`
(src/screwie.py lines 72 and 83); `allowed_users` is the list of integer
ids parsed from the whitespace-separated `allowed_users` config option,
whose fallback is the empty string, hence the empty list.  The spec calls
this test `isAuthorized`. -/
def isAuthorized (allowed : List Int) (senderId : Int) : Bool :=
  allowed.contains senderId

/-- `handle_start` (src/screwie.py lines 67-76), reduced to the replies it
sends: `Welcome!` for an allowed sender, otherwise the denial reply. -/
def handle_start (allowed : List Int) (userId : Int) : List (List Char) :=
  if isAuthorized allowed userId then
    ["Welcome!".toList]
  else
    ["Sorry, this bot is private.".toList]

/-- The fields of an inbound message update that `handle_message` reads:
sender id, username, the already-formatted local-time ISO timestamp
(time-zone conversion and `isoformat` are abstracted as this input), and
the optional body text (`None` when the update carries no text). -/
structure MsgUpdate where
  userId : Int
  username : List Char
  dateIso : List Char
  msgText : Option (List Char)
deriving Repr, DecidableEq

/-- Observable outcome of one `handle_message` run: replies sent to the
sender, whether the denial warning was logged, the canvases created (as
width-height pairs), the draw calls issued, whether the scoped temporary
file was entered / successfully written / deleted on exit, the launched
external command argument vector (if `Popen` succeeded), whether the
launch-failure branch logged an error, and the exception escaping the
handler, if any. -/
structure RunResult where
  replies : List (List Char)
  deniedLogged : Bool
  canvases : List (Nat × Nat)
  drawn : List (Nat × Nat × List Char)
  tempCreated : Bool
  tempWritten : Bool
  tempDeleted : Bool
  launched : Option (List (List Char))
  launchErrorLogged : Bool
  raised : Option (List Char)
deriving Repr, DecidableEq

/-- The run with no observable effects. -/
def emptyRun : RunResult :=
  { replies := [], deniedLogged := false, canvases := [], drawn := [],
    tempCreated := false, tempWritten := false, tempDeleted := false,
    launched := none, launchErrorLogged := false, raised := none }

/-- The text assembled for printing (src/screwie.py lines 103-112):
local-time ISO timestamp, newline, username, blank line, message body. -/
def formatText (u : MsgUpdate) (body : List Char) : List Char :=
  u.dateIso ++ '\n' :: u.username ++ '\n' :: '\n' :: body

/-- The drawing loop (src/screwie.py lines 140-148): each line is drawn
at `x = padding`, with `y` starting at `padding` and advancing by
`line_height + spacing` per line. -/
def drawLinesFrom (lineHeight y : Nat) : List (List Char) → List (Nat × Nat × List Char)
  | [] => []
  | l :: ls => (padding, y, l) :: drawLinesFrom lineHeight (y + lineHeight + spacing) ls

/-- All draw calls of one render pass, starting at `y = padding`. -/
def drawLines (lineHeight : Nat) (lines : List (List Char)) :
    List (Nat × Nat × List Char) :=
  drawLinesFrom lineHeight padding lines

/-- `handle_message` (src/screwie.py lines 78-170).  Parameters embed the
ambient state the handler reads: the allowed-user list, the font's glyph
advances `adv` (so the measurer is `textlength adv`) and line height
(`getbbox` extent, line 128-130), the `delete_temp_files` flag, the
`printer_script` config string, the temporary file name, and the outcomes
fate hands to the two external calls: `img.save` (line 157, NOT wrapped
in any `try`, so its exception escapes the handler after the scoped
temporary file is closed and, when the delete flag is set, removed) and
the `printer_script` lookup plus `subprocess.Popen` (lines 160-168,
wrapped in `try`/`except` that logs and swallows the failure). -/
def handle_message (allowed : List Int) (adv : Char → Nat) (lineHeight : Nat)
    (deleteTempFiles : Bool) (printerScript tmpName : List Char)
    (saveResult launchResult : Except (List Char) Unit)
    (u : MsgUpdate) : RunResult :=
  if isAuthorized allowed u.userId then
    match u.msgText with
    | none => emptyRun
    | some body =>
      if body.isEmpty then emptyRun
      else
        let text := formatText u body
        let lines := wrapText (textlength adv) (width - 2 * padding) text
        let height := (lineHeight + spacing) * lines.length + 2 * padding
        let drawn := drawLines lineHeight lines
        match saveResult with
        | Except.error e =>
          { emptyRun with
            canvases := [(width, height)], drawn := drawn,
            tempCreated := true, tempDeleted := deleteTempFiles,
            raised := some e }
        | Except.ok _ =>
          match launchResult with
          | Except.error _ =>
            { emptyRun with
              canvases := [(width, height)], drawn := drawn,
              tempCreated := true, tempWritten := true,
              tempDeleted := deleteTempFiles, launchErrorLogged := true }
          | Except.ok _ =>
            { emptyRun with
              canvases := [(width, height)], drawn := drawn,
              tempCreated := true, tempWritten := true,
              tempDeleted := deleteTempFiles,
              launched := some (pySplit printerScript ++ [tmpName]) }
  else
    { emptyRun with deniedLogged := true }

/-- The run of a denied message: only the warning log. -/
def deniedRun : RunResult :=
  { emptyRun with deniedLogged := true }

/-- A concrete inbound message from sender 7 with body `hi`. -/
def sampleUpdate : MsgUpdate :=
  { userId := 7, username := "u".toList, dateIso := "d".toList,
    msgText := some "hi".toList }

/-- A concrete inbound message from the unauthorized sender 999. -/
def strangerUpdate : MsgUpdate :=
  { userId := 999, username := "u".toList, dateIso := "d".toList,
    msgText := some "hi".toList }

/-! ## Properties of the embedded Python string primitives -/

theorem pySplitAux_good (cs : List Char) :
    ∀ acc : List Char, (∀ c ∈ acc, isSpace c = false) →
      ∀ w ∈ pySplitAux acc cs, goodWord w := by
  induction cs with
  | nil =>
    intro acc hacc w hw
    by_cases h : acc.isEmpty
    · simp [pySplitAux, h] at hw
    · simp only [pySplitAux, h, if_neg, Bool.false_eq_true, ite_false,
        List.mem_singleton] at hw
      subst hw
      refine ⟨?_, ?_⟩
      · simp only [List.isEmpty_iff] at h
        simpa using h
      · intro c hc
        exact hacc c (List.mem_reverse.mp hc)
  | cons c cs ih =>
    intro acc hacc w hw
    by_cases hs : isSpace c
    · by_cases h : acc.isEmpty
      · simp only [pySplitAux, hs, if_pos, h, ite_true] at hw
        exact ih [] (by simp) w hw
      · simp only [pySplitAux, hs, if_pos, h, Bool.false_eq_true, ite_false,
          List.mem_cons] at hw
        rcases hw with rfl | hw
        · refine ⟨?_, ?_⟩
          · simp only [List.isEmpty_iff] at h
            simpa using h
          · intro d hd
            exact hacc d (List.mem_reverse.mp hd)
        · exact ih [] (by simp) w hw
    · simp only [pySplitAux, hs, Bool.false_eq_true, ite_false] at hw
      refine ih (c :: acc) ?_ w hw
      intro d hd
      rcases List.mem_cons.mp hd with rfl | hd
      · simpa using hs
      · exact hacc d hd

/-- Every word `str.split()` produces is non-empty and whitespace-free. -/
theorem pySplit_good (s : List Char) : ∀ w ∈ pySplit s, goodWord w :=
  pySplitAux_good s [] (by simp)

/-- Scanning a whitespace-free block just accumulates its characters. -/
theorem pySplitAux_absorb (w : List Char) (hw : ∀ c ∈ w, isSpace c = false) :
    ∀ (acc cs : List Char),
      pySplitAux acc (w ++ cs) = pySplitAux (w.reverse ++ acc) cs := by
  induction w with
  | nil => intro acc cs; simp
  | cons c w ih =>
    intro acc cs
    have hc : isSpace c = false := hw c (by simp)
    have hw' : ∀ d ∈ w, isSpace d = false := fun d hd => hw d (by simp [hd])
    have hstep : pySplitAux acc ((c :: w) ++ cs) = pySplitAux (c :: acc) (w ++ cs) := by
      simp [pySplitAux, hc]
    rw [hstep, ih hw' (c :: acc) cs]
    simp

/-- A single whitespace-free non-empty word splits to itself. -/
theorem pySplit_word (w : List Char) (hw : goodWord w) : pySplit w = [w] := by
  obtain ⟨hne, hsp⟩ := hw
  have h := pySplitAux_absorb w hsp [] []
  simp only [List.append_nil] at h
  rw [pySplit, h, pySplitAux]
  simp [List.isEmpty_iff, hne]

theorem joinWords_cons_cons (w a : List Char) (ws : List (List Char)) :
    joinWords (w :: a :: ws) = w ++ ' ' :: joinWords (a :: ws) := by
  rfl

theorem joinWords_append_single (ws : List (List Char)) (w : List Char)
    (h : ws ≠ []) : joinWords (ws ++ [w]) = joinWords ws ++ ' ' :: w := by
  induction ws with
  | nil => exact absurd rfl h
  | cons a ws ih =>
    cases ws with
    | nil => rfl
    | cons b ws' =>
      have hih := ih (by simp)
      simp only [List.cons_append] at hih ⊢
      rw [joinWords_cons_cons, hih, joinWords_cons_cons, List.append_assoc]
      rfl

/-- `str.split()` is a left inverse of joining whitespace-free words with
single spaces. -/
theorem pySplit_joinWords (ws : List (List Char))
    (hws : ∀ w ∈ ws, goodWord w) : pySplit (joinWords ws) = ws := by
  induction ws with
  | nil => rfl
  | cons w ws ih =>
    have hw := hws w (by simp)
    have hws' : ∀ x ∈ ws, goodWord x := fun x hx => hws x (by simp [hx])
    cases ws with
    | nil => exact pySplit_word w hw
    | cons a ws' =>
      rw [joinWords_cons_cons, pySplit,
        pySplitAux_absorb w hw.2 [] (' ' :: joinWords (a :: ws'))]
      have hsp : isSpace ' ' = true := by decide
      have hrev : (List.reverse w ++ []).isEmpty = false := by
        simp [List.isEmpty_iff, hw.1]
      rw [pySplitAux]
      simp only [hsp, if_pos, hrev, Bool.false_eq_true, ite_false]
      rw [← pySplit, ih hws']
      simp

theorem dropWhile_eq_self_of_none (p : Char → Bool) (s : List Char)
    (h : ∀ c ∈ s, p c = false) : s.dropWhile p = s := by
  cases s with
  | nil => rfl
  | cons c t => simp [List.dropWhile_cons, h c (by simp)]

/-- A non-empty sequence of whitespace-free words joins to a block whose
first character is not whitespace. -/
theorem joinWords_head (w : List Char) (ws : List (List Char))
    (hw : goodWord w) :
    ∃ c t, joinWords (w :: ws) = c :: t ∧ isSpace c = false := by
  obtain ⟨hne, hsp⟩ := hw
  cases w with
  | nil => exact absurd rfl hne
  | cons c w' =>
    cases ws with
    | nil => exact ⟨c, w', rfl, hsp c (by simp)⟩
    | cons a ws' =>
      refine ⟨c, w' ++ ' ' :: joinWords (a :: ws'), ?_, hsp c (by simp)⟩
      rw [joinWords_cons_cons]
      rfl

/-- ... and whose last character is not whitespace. -/
theorem joinWords_last (ws : List (List Char)) (hws : ∀ w ∈ ws, goodWord w)
    (hne : ws ≠ []) :
    ∃ s c, joinWords ws = s ++ [c] ∧ isSpace c = false := by
  induction ws with
  | nil => exact absurd rfl hne
  | cons w ws ih =>
    cases ws with
    | nil =>
      obtain ⟨hwne, hwsp⟩ := hws w (by simp)
      exact ⟨w.dropLast, w.getLast hwne,
        (List.dropLast_append_getLast hwne).symm,
        hwsp _ (List.getLast_mem hwne)⟩
    | cons a ws' =>
      obtain ⟨s, c, heq, hc⟩ := ih (fun x hx => hws x (by simp [hx])) (by simp)
      refine ⟨w ++ ' ' :: s, c, ?_, hc⟩
      rw [joinWords_cons_cons, heq]
      simp

/-- `str.strip()` leaves a join of whitespace-free words unchanged. -/
theorem pyStrip_joinWords (ws : List (List Char))
    (hws : ∀ w ∈ ws, goodWord w) : pyStrip (joinWords ws) = joinWords ws := by
  cases ws with
  | nil => rfl
  | cons w ws' =>
    obtain ⟨c, t, hhead, hc⟩ := joinWords_head w ws' (hws w (by simp))
    obtain ⟨s, d, hlast, hd⟩ := joinWords_last (w :: ws') hws (by simp)
    rw [pyStrip, hhead, List.dropWhile_cons_of_neg (by simp [hc]), ← hhead,
      hlast]
    rw [List.reverse_append, List.reverse_singleton, List.singleton_append,
      List.dropWhile_cons_of_neg (by simp [hd])]
    simp

/-- The candidate `(current_line + ' ' + word).strip()` extends the join of
the accumulated words by the new word. -/
theorem test_line_joinWords (curws : List (List Char)) (w : List Char)
    (hcur : ∀ x ∈ curws, goodWord x) (hw : goodWord w) :
    test_line (joinWords curws) w = joinWords (curws ++ [w]) := by
  cases curws with
  | nil =>
    have hstrip : pyStrip (' ' :: w) = w := by
      have h1 : (' ' :: w).dropWhile isSpace = w.dropWhile isSpace :=
        List.dropWhile_cons_of_pos (by decide)
      have h2 : w.dropWhile isSpace = w :=
        dropWhile_eq_self_of_none isSpace w hw.2
      have h3 : w.reverse.dropWhile isSpace = w.reverse :=
        dropWhile_eq_self_of_none isSpace w.reverse
          (fun c hc => hw.2 c (List.mem_reverse.mp hc))
      rw [pyStrip, h1, h2, h3, List.reverse_reverse]
    simpa [test_line] using hstrip
  | cons a curws' =>
    have hall : ∀ x ∈ (a :: curws') ++ [w], goodWord x := by
      intro x hx
      rcases List.mem_append.mp hx with hx | hx
      · exact hcur x hx
      · rcases List.mem_singleton.mp hx with rfl
        exact hw
    rw [test_line, joinWords_append_single (a :: curws') w (by simp)]
    have : joinWords (a :: curws') ++ ' ' :: w =
        joinWords ((a :: curws') ++ [w]) := by
      rw [joinWords_append_single (a :: curws') w (by simp)]
    rw [← joinWords_append_single (a :: curws') w (by simp)]
    exact pyStrip_joinWords _ hall

/-! ## Properties of the wrap loop -/

theorem mem_concatMap {f : α → List β} {l : List α} {b : β} :
    b ∈ concatMap f l ↔ ∃ a ∈ l, b ∈ f a := by
  induction l with
  | nil => simp [concatMap]
  | cons a l ih => simp [concatMap, List.mem_append, ih]

theorem wrapWords_ne_nil (m : List Char → Nat) (b : Nat) :
    ∀ (ws : List (List Char)) (cur : List Char), wrapWords m b cur ws ≠ [] := by
  intro ws
  induction ws with
  | nil => intro cur; simp [wrapWords]
  | cons w ws ih =>
    intro cur
    rw [wrapWords]
    by_cases h : m (test_line cur w) ≤ b
    · simpa [h] using ih (test_line cur w)
    · simp [h]

/-- Invariant behind the wrap-width property: with whitespace-free words
and an accumulator that is within budget or a single word, every emitted
line is within budget or a single word. -/
theorem wrapWords_width (m : List Char → Nat) (b : Nat) :
    ∀ (ws : List (List Char)) (cur : List Char),
      (∀ w ∈ ws, goodWord w) → (m cur ≤ b ∨ pySplit cur = [cur]) →
      ∀ l ∈ wrapWords m b cur ws, m l ≤ b ∨ pySplit l = [l] := by
  intro ws
  induction ws with
  | nil =>
    intro cur _ hcur l hl
    simp only [wrapWords, List.mem_singleton] at hl
    exact hl ▸ hcur
  | cons w ws ih =>
    intro cur hws hcur l hl
    have hw : goodWord w := hws w (by simp)
    have hws' : ∀ x ∈ ws, goodWord x := fun x hx => hws x (by simp [hx])
    rw [wrapWords] at hl
    by_cases h : m (test_line cur w) ≤ b
    · simp only [h, if_pos] at hl
      exact ih (test_line cur w) hws' (Or.inl h) l hl
    · simp only [h, if_neg, List.mem_cons, not_false_iff] at hl
      rcases hl with rfl | hl
      · exact hcur
      · exact ih w hws' (Or.inr (pySplit_word w hw)) l hl

/-- Invariant behind content preservation: starting from the join of the
already-accumulated words, the lines the loop emits carry exactly the
accumulated words followed by the remaining words, in order, and each
emitted line is itself a single-space join of whitespace-free words. -/
theorem wrapWords_join_spec (m : List Char → Nat) (b : Nat) :
    ∀ (ws curws : List (List Char)),
      (∀ w ∈ ws, goodWord w) → (∀ w ∈ curws, goodWord w) →
      concatMap pySplit (wrapWords m b (joinWords curws) ws) = curws ++ ws ∧
      ∀ l ∈ wrapWords m b (joinWords curws) ws,
        ∃ lws, (∀ x ∈ lws, goodWord x) ∧ l = joinWords lws := by
  intro ws
  induction ws with
  | nil =>
    intro curws _ hcur
    refine ⟨?_, ?_⟩
    · simp [wrapWords, concatMap, pySplit_joinWords curws hcur]
    · intro l hl
      simp only [wrapWords, List.mem_singleton] at hl
      exact ⟨curws, hcur, hl⟩
  | cons w ws ih =>
    intro curws hws hcur
    have hw : goodWord w := hws w (by simp)
    have hws' : ∀ x ∈ ws, goodWord x := fun x hx => hws x (by simp [hx])
    have hcur' : ∀ x ∈ curws ++ [w], goodWord x := by
      intro x hx
      rcases List.mem_append.mp hx with hx | hx
      · exact hcur x hx
      · rcases List.mem_singleton.mp hx with rfl
        exact hw
    have htest := test_line_joinWords curws w hcur hw
    rw [wrapWords, htest]
    by_cases h : m (joinWords (curws ++ [w])) ≤ b
    · simp only [h, if_pos]
      obtain ⟨h1, h2⟩ := ih (curws ++ [w]) hws' hcur'
      exact ⟨by rw [h1]; simp, h2⟩
    · simp only [h, if_neg, not_false_iff]
      have hwj : joinWords [w] = w := rfl
      obtain ⟨h1, h2⟩ := ih [w] hws' (by simpa using hw)
      rw [hwj] at h1 h2
      refine ⟨?_, ?_⟩
      · rw [concatMap, h1, pySplit_joinWords curws hcur]
        simp
      · intro l hl
        rcases List.mem_cons.mp hl with rfl | hl
        · exact ⟨curws, hcur, rfl⟩
        · exact h2 l hl

theorem joinWords_nil : joinWords [] = [] := rfl

theorem joinWords_singleton (w : List Char) : joinWords [w] = w := rfl

theorem textlength_nil (adv : Char → Nat) : textlength adv [] = 0 := rfl

theorem textlength_append (adv : Char → Nat) (s t : List Char) :
    textlength adv (s ++ t) = textlength adv s + textlength adv t := by
  simp [textlength]

/-- Appending a word to the accumulator cannot shrink below the word's
own measure: glyph advances only add up. -/
theorem textlength_test_line_word (adv : Char → Nat)
    (curws : List (List Char)) (w : List Char)
    (hcur : ∀ x ∈ curws, goodWord x) (hw : goodWord w) :
    textlength adv w ≤ textlength adv (test_line (joinWords curws) w) := by
  rw [test_line_joinWords curws w hcur hw]
  cases curws with
  | nil => simp [joinWords_singleton]
  | cons a curws' =>
    rw [joinWords_append_single (a :: curws') w (by simp)]
    have : textlength adv (' ' :: w) = adv ' ' + textlength adv w := by
      simp [textlength]
    rw [textlength_append, this]
    omega

/-- ... nor below the accumulator's own measure. -/
theorem textlength_test_line_cur (adv : Char → Nat)
    (curws : List (List Char)) (w : List Char)
    (hcur : ∀ x ∈ curws, goodWord x) (hw : goodWord w) :
    textlength adv (joinWords curws) ≤
      textlength adv (test_line (joinWords curws) w) := by
  rw [test_line_joinWords curws w hcur hw]
  cases curws with
  | nil => simp [joinWords_nil, textlength_nil]
  | cons a curws' =>
    rw [joinWords_append_single (a :: curws') w (by simp), textlength_append]
    omega

/-! ## Claim theorems: the wrap loop -/

/-- C2: for every input text, pixel budget and per-glyph measurer, every
line emitted by the word-wrap loop has measured pixel length within the
`width - 2 * padding` budget, except lines consisting of a single word
whose own measured length already exceeds that budget. -/
theorem screwie_C2 (adv : Char → Nat) (budget : Nat) (text l : List Char)
    (hl : l ∈ wrapText (textlength adv) budget text) :
    textlength adv l ≤ budget ∨
      (pySplit l = [l] ∧ budget < textlength adv l) := by
  obtain ⟨line, _, hline⟩ := mem_concatMap.mp hl
  rw [wrapLine] at hline
  have h0 : textlength adv ([] : List Char) ≤ budget := by
    simp [textlength_nil]
  have hinv := wrapWords_width (textlength adv) budget (pySplit line) []
    (pySplit_good line) (Or.inl h0) l hline
  by_cases hle : textlength adv l ≤ budget
  · exact Or.inl hle
  · rcases hinv with h | h
    · exact Or.inl h
    · exact Or.inr ⟨h, Nat.lt_of_not_le hle⟩

theorem screwie_C2_witness :
    textlength (fun _ => 10) "Hello world".toList ≤ 368 ∨
      (pySplit "Hello world".toList = ["Hello world".toList] ∧
        368 < textlength (fun _ => 10) "Hello world".toList) :=
  screwie_C2 (fun _ => 10) 368 "Hello world".toList "Hello world".toList
    (by decide)

/-- C6: a word whose measured length alone exceeds the budget makes the
loop emit the current accumulator as a finished line (even when the
accumulator is empty) and then the overflowing word as-is on its own
subsequent line, never broken into smaller pieces.  The accumulator is
the single-space join of the words accumulated so far, as the loop
maintains it. -/
theorem screwie_C6 (adv : Char → Nat) (b : Nat) (curws ws : List (List Char))
    (w : List Char) (hcur : ∀ x ∈ curws, goodWord x)
    (hws : ∀ x ∈ ws, goodWord x) (hw : goodWord w)
    (hover : b < textlength adv w) :
    List.take 2 (wrapWords (textlength adv) b (joinWords curws) (w :: ws)) =
      [joinWords curws, w] := by
  have hge := textlength_test_line_word adv curws w hcur hw
  have h1 : ¬ textlength adv (test_line (joinWords curws) w) ≤ b := by omega
  rw [wrapWords]
  simp only [h1, if_neg, not_false_iff]
  cases ws with
  | nil => rfl
  | cons w2 ws' =>
    have hw2 : goodWord w2 := hws w2 (by simp)
    have hge2 := textlength_test_line_cur adv [w] w2 (by simpa using hw) hw2
    rw [joinWords_singleton] at hge2
    have h2 : ¬ textlength adv (test_line w w2) ≤ b := by omega
    rw [wrapWords]
    simp only [h2, if_neg, not_false_iff]
    rfl

theorem screwie_C6_witness :
    List.take 2 (wrapWords (textlength (fun _ => 100)) 368 (joinWords [])
        ["Hello".toList]) = [joinWords [], "Hello".toList] :=
  screwie_C6 (fun _ => 100) 368 [] [] "Hello".toList (by simp) (by simp)
    (by decide) (by decide)

/-- C7: every source line of the input makes the wrap loop emit at least
one line; an empty source line yields exactly one emitted empty line. -/
theorem screwie_C7 (m : List Char → Nat) (b : Nat) (text line : List Char)
    (hline : line ∈ splitlines text) :
    wrapLine m b line ≠ [] ∧ (line = [] → wrapLine m b line = [[]]) := by
  refine ⟨wrapWords_ne_nil m b (pySplit line) [], ?_⟩
  rintro rfl
  rfl

theorem screwie_C7_witness :
    wrapLine (fun _ => 0) 368 ([] : List Char) ≠ [] ∧
      (([] : List Char) = [] →
        wrapLine (fun _ => 0) 368 ([] : List Char) = [[]]) :=
  screwie_C7 (fun _ => 0) 368 "a\n\nb".toList [] (by decide)

/-- C10: the wrap loop preserves content: splitting the emitted lines of a
source line back into words and concatenating, in emission order, yields
exactly the source line's words in order, and every emitted line carries
no leading or trailing whitespace. -/
theorem screwie_C10 (m : List Char → Nat) (b : Nat) (line : List Char) :
    concatMap pySplit (wrapLine m b line) = pySplit line ∧
    ∀ l ∈ wrapLine m b line, pyStrip l = l := by
  have h := wrapWords_join_spec m b (pySplit line) [] (pySplit_good line)
    (by simp)
  rw [joinWords_nil] at h
  refine ⟨?_, ?_⟩
  · rw [wrapLine, h.1]
    simp
  · intro l hl
    rw [wrapLine] at hl
    obtain ⟨lws, hlws, rfl⟩ := h.2 l hl
    exact pyStrip_joinWords lws hlws

theorem screwie_C10_witness :
    concatMap pySplit (wrapLine (fun s => s.length) 3 "abcde fg".toList) =
      pySplit "abcde fg".toList ∧
    pyStrip "abcde".toList = "abcde".toList :=
  ⟨(screwie_C10 (fun s => s.length) 3 "abcde fg".toList).1,
   (screwie_C10 (fun s => s.length) 3 "abcde fg".toList).2 "abcde".toList
     (by decide)⟩

/-! ## Claim theorems: authorization and the handler pipeline -/

/-- C4: the authorization test accepts a sender id exactly when it is
listed in the configured allowed-users set, and the empty configured set
denies every id (no implicit allow-all). -/
theorem screwie_C4 (allowed : List Int) (senderId : Int) :
    (isAuthorized allowed senderId = true ↔ senderId ∈ allowed) ∧
    isAuthorized [] senderId = false := by
  constructor
  · simp [isAuthorized]
  · rfl

theorem screwie_C4_witness :
    (isAuthorized [123, 456] 999 = true ↔ (999 : Int) ∈ [123, 456]) ∧
    isAuthorized [] 999 = false :=
  screwie_C4 [123, 456] 999

/-- C1 refuted as stated: on an unauthorized non-command message,
`handle_message` sends no reply at all — in particular no denial reply —
while it does log the denial. -/
theorem screwie_C1_cex :
    (handle_message [] (fun _ => 1) 24 true "lp".toList "t.png".toList
        (Except.ok ()) (Except.ok ()) strangerUpdate).replies = [] ∧
    (handle_message [] (fun _ => 1) 24 true "lp".toList "t.png".toList
        (Except.ok ()) (Except.ok ()) strangerUpdate).deniedLogged = true := by
  decide

/-- C1 amended: on an unauthorized non-command message the handler logs a
denial warning and terminates without invoking the wrapping, rendering or
dispatch pipeline and without sending any reply; the denial reply
informing the sender the bot is private exists only in the `/start`
command handler. -/
theorem screwie_C1_amended (allowed : List Int) (adv : Char → Nat)
    (lineHeight : Nat) (deleteTempFiles : Bool)
    (printerScript tmpName : List Char)
    (saveResult launchResult : Except (List Char) Unit) (u : MsgUpdate)
    (hden : isAuthorized allowed u.userId = false) :
    handle_message allowed adv lineHeight deleteTempFiles printerScript
      tmpName saveResult launchResult u = deniedRun ∧
    handle_start allowed u.userId = ["Sorry, this bot is private.".toList] := by
  constructor
  · simp [handle_message, hden, deniedRun, emptyRun]
  · simp [handle_start, hden]

theorem screwie_C1_amended_witness :
    handle_message [] (fun _ => 1) 24 true "lp".toList "t.png".toList
      (Except.ok ()) (Except.ok ()) strangerUpdate = deniedRun ∧
    handle_start [] strangerUpdate.userId =
      ["Sorry, this bot is private.".toList] :=
  screwie_C1_amended [] (fun _ => 1) 24 true "lp".toList "t.png".toList
    (Except.ok ()) (Except.ok ()) strangerUpdate (by decide)

/-- C3: whenever a message is rendered, the allocated canvas height is
exactly `(line_height + spacing) * line_count + 2 * padding`, where
`line_count` is the number of wrapped lines of the formatted text. -/
theorem screwie_C3 (allowed : List Int) (adv : Char → Nat) (lineHeight : Nat)
    (deleteTempFiles : Bool) (printerScript tmpName : List Char)
    (saveResult launchResult : Except (List Char) Unit) (u : MsgUpdate)
    (body : List Char) (hauth : isAuthorized allowed u.userId = true)
    (hbody : u.msgText = some body) (hne : body ≠ []) :
    (handle_message allowed adv lineHeight deleteTempFiles printerScript
        tmpName saveResult launchResult u).canvases =
      [(width, (lineHeight + spacing) *
          (wrapText (textlength adv) (width - 2 * padding)
            (formatText u body)).length + 2 * padding)] := by
  have hempty : body.isEmpty = false := by
    simp [List.isEmpty_iff, hne]
  cases saveResult <;> cases launchResult <;>
    simp [handle_message, hauth, hbody, hempty]

theorem screwie_C3_witness :
    (handle_message [7] (fun _ => 1) 24 true "lp".toList "t.png".toList
        (Except.ok ()) (Except.ok ()) sampleUpdate).canvases =
      [(width, (24 + spacing) *
          (wrapText (textlength (fun _ => 1)) (width - 2 * padding)
            (formatText sampleUpdate "hi".toList)).length + 2 * padding)] :=
  screwie_C3 [7] (fun _ => 1) 24 true "lp".toList "t.png".toList
    (Except.ok ()) (Except.ok ()) sampleUpdate "hi".toList (by decide)
    (by decide) (by decide)

/-- C5: a message whose body is absent or empty never reaches rendering or
dispatch: no canvas is created, nothing is drawn, no temporary file is
opened or written, and no external command is launched; no error escapes
either. -/
theorem screwie_C5 (allowed : List Int) (adv : Char → Nat) (lineHeight : Nat)
    (deleteTempFiles : Bool) (printerScript tmpName : List Char)
    (saveResult launchResult : Except (List Char) Unit) (u : MsgUpdate)
    (hempty : u.msgText = none ∨ u.msgText = some []) :
    (handle_message allowed adv lineHeight deleteTempFiles printerScript
        tmpName saveResult launchResult u).canvases = [] ∧
    (handle_message allowed adv lineHeight deleteTempFiles printerScript
        tmpName saveResult launchResult u).drawn = [] ∧
    (handle_message allowed adv lineHeight deleteTempFiles printerScript
        tmpName saveResult launchResult u).tempCreated = false ∧
    (handle_message allowed adv lineHeight deleteTempFiles printerScript
        tmpName saveResult launchResult u).tempWritten = false ∧
    (handle_message allowed adv lineHeight deleteTempFiles printerScript
        tmpName saveResult launchResult u).launched = none ∧
    (handle_message allowed adv lineHeight deleteTempFiles printerScript
        tmpName saveResult launchResult u).raised = none := by
  cases hauth : isAuthorized allowed u.userId
  · simp [handle_message, hauth, emptyRun]
  · rcases hempty with h | h <;> simp [handle_message, hauth, h, emptyRun]

theorem screwie_C5_witness :
    (handle_message [7] (fun _ => 1) 24 true "lp".toList "t.png".toList
        (Except.ok ()) (Except.ok ())
        { sampleUpdate with msgText := some [] }).canvases = [] ∧
    (handle_message [7] (fun _ => 1) 24 true "lp".toList "t.png".toList
        (Except.ok ()) (Except.ok ())
        { sampleUpdate with msgText := some [] }).drawn = [] ∧
    (handle_message [7] (fun _ => 1) 24 true "lp".toList "t.png".toList
        (Except.ok ()) (Except.ok ())
        { sampleUpdate with msgText := some [] }).tempCreated = false ∧
    (handle_message [7] (fun _ => 1) 24 true "lp".toList "t.png".toList
        (Except.ok ()) (Except.ok ())
        { sampleUpdate with msgText := some [] }).tempWritten = false ∧
    (handle_message [7] (fun _ => 1) 24 true "lp".toList "t.png".toList
        (Except.ok ()) (Except.ok ())
        { sampleUpdate with msgText := some [] }).launched = none ∧
    (handle_message [7] (fun _ => 1) 24 true "lp".toList "t.png".toList
        (Except.ok ()) (Except.ok ())
        { sampleUpdate with msgText := some [] }).raised = none :=
  screwie_C5 [7] (fun _ => 1) 24 true "lp".toList "t.png".toList
    (Except.ok ()) (Except.ok ()) { sampleUpdate with msgText := some [] }
    (Or.inr (by decide))

/-- C8 refuted as stated: a canvas-serialization failure is NOT recovered
locally — the launch-failure log branch never runs and the exception
escapes `handle_message` — even though the temporary file is still
released. -/
theorem screwie_C8_cex :
    (handle_message [7] (fun _ => 1) 24 true "lp".toList "t.png".toList
        (Except.error "disk full".toList) (Except.ok ())
        sampleUpdate).raised = some "disk full".toList ∧
    (handle_message [7] (fun _ => 1) 24 true "lp".toList "t.png".toList
        (Except.error "disk full".toList) (Except.ok ())
        sampleUpdate).launchErrorLogged = false := by
  decide

/-- C8 amended: if serializing the canvas to the temporary file fails,
the scoped temporary file resource is still released (deleted exactly
when `delete_temp_files` is set) and nothing is launched, but the failure
is not caught or logged inside the handler: the exception propagates out
of message processing. -/
theorem screwie_C8_amended (allowed : List Int) (adv : Char → Nat)
    (lineHeight : Nat) (deleteTempFiles : Bool)
    (printerScript tmpName : List Char)
    (launchResult : Except (List Char) Unit) (u : MsgUpdate)
    (body errMsg : List Char)
    (hauth : isAuthorized allowed u.userId = true)
    (hbody : u.msgText = some body) (hne : body ≠ []) :
    (handle_message allowed adv lineHeight deleteTempFiles printerScript
        tmpName (Except.error errMsg) launchResult u).tempCreated = true ∧
    (handle_message allowed adv lineHeight deleteTempFiles printerScript
        tmpName (Except.error errMsg) launchResult u).tempDeleted =
      deleteTempFiles ∧
    (handle_message allowed adv lineHeight deleteTempFiles printerScript
        tmpName (Except.error errMsg) launchResult u).raised = some errMsg ∧
    (handle_message allowed adv lineHeight deleteTempFiles printerScript
        tmpName (Except.error errMsg) launchResult u).launchErrorLogged =
      false ∧
    (handle_message allowed adv lineHeight deleteTempFiles printerScript
        tmpName (Except.error errMsg) launchResult u).launched = none := by
  have hempty : body.isEmpty = false := by
    simp [List.isEmpty_iff, hne]
  simp [handle_message, hauth, hbody, hempty, emptyRun]

theorem screwie_C8_amended_witness :
    (handle_message [7] (fun _ => 1) 24 true "lp".toList "t.png".toList
        (Except.error "e".toList) (Except.ok ())
        sampleUpdate).tempCreated = true ∧
    (handle_message [7] (fun _ => 1) 24 true "lp".toList "t.png".toList
        (Except.error "e".toList) (Except.ok ())
        sampleUpdate).tempDeleted = true ∧
    (handle_message [7] (fun _ => 1) 24 true "lp".toList "t.png".toList
        (Except.error "e".toList) (Except.ok ())
        sampleUpdate).raised = some "e".toList ∧
    (handle_message [7] (fun _ => 1) 24 true "lp".toList "t.png".toList
        (Except.error "e".toList) (Except.ok ())
        sampleUpdate).launchErrorLogged = false ∧
    (handle_message [7] (fun _ => 1) 24 true "lp".toList "t.png".toList
        (Except.error "e".toList) (Except.ok ())
        sampleUpdate).launched = none :=
  screwie_C8_amended [7] (fun _ => 1) 24 true "lp".toList "t.png".toList
    (Except.ok ()) sampleUpdate "hi".toList "e".toList (by decide)
    (by decide) (by decide)

/-- C9: a failure to launch the external printer command is caught and
logged inside the handler and does not propagate: processing completes
with no escaping exception, nothing launched, and no reply sent to the
sender. -/
theorem screwie_C9 (allowed : List Int) (adv : Char → Nat) (lineHeight : Nat)
    (deleteTempFiles : Bool) (printerScript tmpName : List Char)
    (u : MsgUpdate) (body errMsg : List Char)
    (hauth : isAuthorized allowed u.userId = true)
    (hbody : u.msgText = some body) (hne : body ≠ []) :
    (handle_message allowed adv lineHeight deleteTempFiles printerScript
        tmpName (Except.ok ()) (Except.error errMsg) u).launchErrorLogged =
      true ∧
    (handle_message allowed adv lineHeight deleteTempFiles printerScript
        tmpName (Except.ok ()) (Except.error errMsg) u).raised = none ∧
    (handle_message allowed adv lineHeight deleteTempFiles printerScript
        tmpName (Except.ok ()) (Except.error errMsg) u).replies = [] ∧
    (handle_message allowed adv lineHeight deleteTempFiles printerScript
        tmpName (Except.ok ()) (Except.error errMsg) u).launched = none := by
  have hempty : body.isEmpty = false := by
    simp [List.isEmpty_iff, hne]
  simp [handle_message, hauth, hbody, hempty, emptyRun]

theorem screwie_C9_witness :
    (handle_message [7] (fun _ => 1) 24 true "lp".toList "t.png".toList
        (Except.ok ()) (Except.error "enoent".toList)
        sampleUpdate).launchErrorLogged = true ∧
    (handle_message [7] (fun _ => 1) 24 true "lp".toList "t.png".toList
        (Except.ok ()) (Except.error "enoent".toList)
        sampleUpdate).raised = none ∧
    (handle_message [7] (fun _ => 1) 24 true "lp".toList "t.png".toList
        (Except.ok ()) (Except.error "enoent".toList)
        sampleUpdate).replies = [] ∧
    (handle_message [7] (fun _ => 1) 24 true "lp".toList "t.png".toList
        (Except.ok ()) (Except.error "enoent".toList)
        sampleUpdate).launched = none :=
  screwie_C9 [7] (fun _ => 1) 24 true "lp".toList "t.png".toList
    sampleUpdate "hi".toList "enoent".toList (by decide) (by decide)
    (by decide)

end Screwie
